import Mathlib

/-!
Verification of the SuperNjagu command dispatcher (`main.py`).

The dispatcher reads one line of user input (or the process arguments),
classifies it, and delegates to external collaborators (agent, file
operations, CLI operations).  We embed the dispatcher shallowly:

* strings are `List Char`; Python's `str.strip`, `str.lower`,
  `str.startswith` and `str.split(' ', 1)` are modelled on the ASCII
  fragment (`pyStrip`, `pyLower`, `List.isPrefixOf`, `afterFirstSpace`);
* the four collaborator calls are oracle functions bundled in a
  `SuperNjaguMain` record; a call that raises a Python exception is an
  oracle returning `.error msg`;
* one loop iteration (`stepLine`) returns the ordered list of observable
  events (collaborator calls and `print`s) together with the loop outcome.
-/

/-- ASCII whitespace, the characters stripped by Python `str.strip()`
(space, tab, newline, carriage return, vertical tab, form feed). -/
def pyIsSpace (c : Char) : Bool :=
  c = ' ' || c = '\t' || c = '\n' || c = '\r' || c = '\x0b' || c = '\x0c'

/-- ASCII model of Python `str.lower()` on a single character. -/
def pyLowerChar (c : Char) : Char :=
  if 'A' ≤ c && c ≤ 'Z' then Char.ofNat (c.toNat + 32) else c

/-- ASCII model of Python `str.lower()`. -/
def pyLower (l : List Char) : List Char :=
  l.map pyLowerChar

/-- Python `str.strip()`: drop whitespace from both ends. -/
def pyStrip (l : List Char) : List Char :=
  (l.dropWhile pyIsSpace).rdropWhile pyIsSpace

/-- The second component of Python `s.split(' ', 1)` when `s` contains a
space: everything after the first space character. -/
def afterFirstSpace (l : List Char) : List Char :=
  (l.dropWhile (fun c => c ≠ ' ')).drop 1

/-- Error message of a raised Python exception (`str(e)`). -/
abbrev Err : Type := List Char

/-- `TaskResult`: the record returned by `SuperNjaguAgent.execute_autonomous`.
The dispatcher reads `status`, `len(steps)` and `final_result`; the step
records themselves are opaque. -/
structure TaskResult where
  status : List Char
  steps : List (List Char)
  final_result : List Char
deriving DecidableEq, Repr

/-- `CommandResult`: the record returned by `CLIOperations.execute_command`.
`stdout` is `none` when the key is absent (`result.get('stdout')` is `None`). -/
structure CommandResult where
  success : Bool
  stdout : Option (List Char)
deriving DecidableEq, Repr

/-- Python truthiness of `result.get('stdout')`: `None` and the empty
string are falsy. -/
def pyTruthy (o : Option (List Char)) : Bool :=
  match o with
  | none => false
  | some s => s ≠ []

/-- Python `str(b)` for a boolean. -/
def pyBoolStr (b : Bool) : List Char :=
  if b then "True".data else "False".data

/-- The `SuperNjaguMain` orchestrator: the workspace path plus the
collaborator entry points it consumes.  The collaborators are external
(`SuperNjaguAgent`, `FileOperations`, `CLIOperations`), so they are
modelled as oracle functions; `.error e` models a raised exception with
message `e`. -/
structure SuperNjaguMain where
  workspace : List Char
  execute_autonomous : List Char → Except Err TaskResult
  get_status : Unit → Except Err (List (List Char × List Char))
  create_file : List Char → List Char → Except Err (List Char)
  read_file : List Char → Except Err (List Char)
  execute_command : List Char → Except Err CommandResult

/-- Classification of one interactive input line (the `if`/`elif` chain of
`interactive_mode`, applied to the stripped line). -/
inductive Cmd
  | blank
  | exitC
  | helpC
  | statusC
  | createC (content : List Char)
  | readC (filename : List Char)
  | runC (command : List Char)
  | taskC (task : List Char)
deriving DecidableEq, Repr

/-- The `if`/`elif` chain of `interactive_mode` on the already-stripped
input `s`: first match wins; keyword tests are on `s.lower()`, payloads
(`user_input.split(' ', 1)[1]`) keep the original case. -/
def classifyS (s : List Char) : Cmd :=
  if s = [] then .blank
  else if pyLower s = "exit".data then .exitC
  else if pyLower s = "help".data then .helpC
  else if pyLower s = "status".data then .statusC
  else if "create ".data.isPrefixOf (pyLower s) then .createC (afterFirstSpace s)
  else if "read ".data.isPrefixOf (pyLower s) then .readC (afterFirstSpace s)
  else if "run ".data.isPrefixOf (pyLower s) then .runC (afterFirstSpace s)
  else .taskC s

/-- Classification of a raw input line: `input(...).strip()` followed by
the `if`/`elif` chain. -/
def classify (raw : List Char) : Cmd :=
  classifyS (pyStrip raw)

/-- Observable events of a dispatch: collaborator invocations (with their
arguments) and lines written to standard output. -/
inductive Event
  | print (s : List Char)
  | callAgent (task : List Char)
  | callGetStatus
  | callCreateFile (filename content : List Char)
  | callReadFile (filename : List Char)
  | callRunCmd (command : List Char)
deriving DecidableEq, Repr

/-- Whether the interactive loop keeps running after an iteration. -/
inductive LoopOutcome
  | continueLoop
  | stop
deriving DecidableEq, Repr

/-- `print("-" * 60)`. -/
def dashes60 : List Char :=
  List.replicate 60 '-'

/-- The error report of the loop-level handler:
`print(f"\n❌ Error: \x7bstr(e)\x7d")`. -/
def errLine (e : Err) : List Char :=
  "\n❌ Error: ".data ++ e

/-- `SuperNjaguMain.run_task`: banner prints, the (awaited) agent call,
then the summary prints on success.  On an exception the summary is not
printed and the error propagates to the caller as `.error`. -/
def run_task (M : SuperNjaguMain) (task : List Char) :
    List Event × Except Err TaskResult :=
  let pre : List Event :=
    [.print "\n🚀 SuperNjagu Agent - Starting Task".data,
     .print ("📋 Task: ".data ++ task),
     .print ("🏢 Workspace: ".data ++ M.workspace),
     .print dashes60]
  match M.execute_autonomous task with
  | .error e => (pre ++ [.callAgent task], .error e)
  | .ok r =>
    (pre ++ [.callAgent task,
             .print dashes60,
             .print ("✅ Task Status: ".data ++ r.status),
             .print ("📊 Steps Completed: ".data ++ (Nat.repr r.steps.length).data)],
     .ok r)

/-- The static help text printed by `_show_help`. -/
def helpText : List Char :=
  "\n📚 SuperNjagu Agent Commands: ...\n".data

/-- One iteration of the `while True` body of `interactive_mode` on input
line `raw` (the part inside the `try`): strip, classify, dispatch, print.
A collaborator exception is caught by the iteration's `except Exception`
handler, which prints the message and lets the loop continue. -/
def stepLine (M : SuperNjaguMain) (raw : List Char) :
    List Event × LoopOutcome :=
  match classify raw with
  | .blank => ([], .continueLoop)
  | .exitC => ([.print "👋 Goodbye!".data], .stop)
  | .helpC => ([.print helpText], .continueLoop)
  | .statusC =>
    (.callGetStatus ::
      (match M.get_status () with
       | .ok st =>
         .print "\n📊 Agent Status:".data ::
           st.map (fun kv => .print ("  ".data ++ kv.1 ++ ": ".data ++ kv.2))
       | .error e => [.print (errLine e)]),
     .continueLoop)
  | .createC content =>
    (.callCreateFile "user_file.txt".data content ::
      (match M.create_file "user_file.txt".data content with
       | .ok res => [.print ("\n✅ ".data ++ res)]
       | .error e => [.print (errLine e)]),
     .continueLoop)
  | .readC filename =>
    (.callReadFile filename ::
      (match M.read_file filename with
       | .ok res => [.print ("\n📖 ".data ++ res)]
       | .error e => [.print (errLine e)]),
     .continueLoop)
  | .runC command =>
    (.callRunCmd command ::
      (match M.execute_command command with
       | .ok res =>
         [.print "\n⚡ Command Result:".data,
          .print ("  Success: ".data ++ pyBoolStr res.success)] ++
           (if pyTruthy res.stdout then
             [.print ("  Output: ".data ++
               (res.stdout.getD []).take 200 ++ "...".data)]
            else [])
       | .error e => [.print (errLine e)]),
     .continueLoop)
  | .taskC t =>
    ((run_task M t).1 ++
      (match (run_task M t).2 with
       | .ok r => [.print ("\n✨ Result: ".data ++ r.final_result)]
       | .error e => [.print (errLine e)]),
     .continueLoop)

/-- How the process exits in `main`: after one completed task, by an
uncaught exception, or by entering interactive mode. -/
inductive ProcExit
  | completed (r : TaskResult)
  | crashed (e : Err)
  | interactiveEntry
deriving DecidableEq, Repr

/-- `main()`: with process arguments present, join them with single
spaces into one task string and run it once (no exception handling:
an agent error propagates and crashes the process); otherwise enter
interactive mode. -/
def mainEntry (M : SuperNjaguMain) (args : List (List Char)) :
    List Event × ProcExit :=
  match args with
  | [] => ([], .interactiveEntry)
  | _ :: _ =>
    match run_task M (List.intercalate [' '] args) with
    | (evs, .ok r) => (evs, .completed r)
    | (evs, .error e) => (evs, .crashed e)

/-- What one blocking `input()` read yields: a line, or a caught
interrupt signal. -/
inductive ReadResult
  | line (s : List Char)
  | interrupt
deriving DecidableEq, Repr

/-- States of the interactive loop viewed as a state machine. -/
inductive LoopState
  | awaiting
  | stopped
deriving DecidableEq, Repr

/-- The message printed by the `except KeyboardInterrupt` handler. -/
def interruptedMsg : List Char :=
  "\n\n👋 Interrupted. Type \x27exit\x27 to quit.".data

/-- One transition of the interactive loop: an interrupt during the
blocking read prints a message and stays in `awaiting`; a read line is
dispatched by `stepLine`, and only a `stop` outcome reaches `stopped`. -/
def loopStep (M : SuperNjaguMain) (st : LoopState) (r : ReadResult) :
    List Event × LoopState :=
  match st, r with
  | .stopped, _ => ([], .stopped)
  | .awaiting, .interrupt => ([.print interruptedMsg], .awaiting)
  | .awaiting, .line s =>
    ((stepLine M s).1,
     match (stepLine M s).2 with
     | .continueLoop => .awaiting
     | .stop => .stopped)

/-- The agent-call arguments recorded in an event list, in order. -/
def agentCalls (evs : List Event) : List (List Char) :=
  evs.filterMap (fun e =>
    match e with
    | .callAgent t => some t
    | _ => none)

/-- The `create_file` calls (filename, content) recorded in an event
list, in order. -/
def createCalls (evs : List Event) : List (List Char × List Char) :=
  evs.filterMap (fun e =>
    match e with
    | .callCreateFile fn ct => some (fn, ct)
    | _ => none)

/-- The `read_file` calls recorded in an event list, in order. -/
def readCalls (evs : List Event) : List (List Char) :=
  evs.filterMap (fun e =>
    match e with
    | .callReadFile fn => some fn
    | _ => none)

/-- The `execute_command` calls recorded in an event list, in order. -/
def runCalls (evs : List Event) : List (List Char) :=
  evs.filterMap (fun e =>
    match e with
    | .callRunCmd c => some c
    | _ => none)

/-- A concrete collaborator assignment on which every call succeeds,
used to evaluate the dispatcher on sample inputs. -/
def Mwit : SuperNjaguMain :=
  { workspace := "/workspace".data
    execute_autonomous := fun _ =>
      .ok ⟨"completed".data, ["step1".data, "step2".data], "done".data⟩
    get_status := fun _ => .ok [("state".data, "idle".data)]
    create_file := fun _ _ => .ok "created".data
    read_file := fun _ => .ok "contents".data
    execute_command := fun _ => .ok ⟨true, some "hi".data⟩ }

/-- A concrete collaborator assignment on which every call raises an
exception with message `boom`. -/
def Merr : SuperNjaguMain :=
  { workspace := "/workspace".data
    execute_autonomous := fun _ => .error "boom".data
    get_status := fun _ => .error "boom".data
    create_file := fun _ _ => .error "boom".data
    read_file := fun _ => .error "boom".data
    execute_command := fun _ => .error "boom".data }

/-! ## Helper lemmas -/

theorem dropWhile_rdropWhile_dropWhile (p : Char → Bool) (l : List Char) :
    List.dropWhile p (List.rdropWhile p (List.dropWhile p l)) =
      List.rdropWhile p (List.dropWhile p l) := by
  cases hrd : List.rdropWhile p (List.dropWhile p l) with
  | nil => simp
  | cons c t =>
    obtain ⟨s, hs⟩ := List.rdropWhile_prefix p (List.dropWhile p l)
    rw [hrd] at hs
    have hs' : List.dropWhile p l = c :: (t ++ s) := by
      rw [← hs]; simp
    have hpc : p c = false := by
      cases hc : p c with
      | false => rfl
      | true =>
        have hidem := List.dropWhile_idempotent p l
        rw [hs', List.dropWhile_cons, if_pos hc] at hidem
        have hlen := congrArg List.length hidem
        have hle := (List.dropWhile_suffix (l := t ++ s) p).length_le
        simp only [List.length_cons, List.length_append] at hlen hle
        omega
    rw [List.dropWhile_cons, if_neg (by simp [hpc])]

/-- Python `strip` is idempotent. -/
theorem pyStrip_idem (l : List Char) : pyStrip (pyStrip l) = pyStrip l := by
  unfold pyStrip
  rw [dropWhile_rdropWhile_dropWhile, List.rdropWhile_idempotent]

theorem classify_pyStrip (l : List Char) :
    classify (pyStrip l) = classify l := by
  unfold classify
  rw [pyStrip_idem]

theorem stepLine_pyStrip (M : SuperNjaguMain) (l : List Char) :
    stepLine M (pyStrip l) = stepLine M l := by
  unfold stepLine
  rw [classify_pyStrip]

theorem classifyS_eq_exitC_iff (s : List Char) :
    classifyS s = Cmd.exitC ↔ pyLower s = "exit".data := by
  constructor
  · intro h
    unfold classifyS at h
    split_ifs at h
    all_goals simp_all
  · intro h
    have h0 : ¬ s = [] := by
      intro he; rw [he] at h; exact absurd h (by decide)
    unfold classifyS
    rw [if_neg h0, if_pos h]

theorem classifyS_of_create (s : List Char)
    (h : "create ".data.isPrefixOf (pyLower s) = true) :
    classifyS s = Cmd.createC (afterFirstSpace s) := by
  have h0 : ¬ s = [] := by
    intro he; rw [he] at h; exact absurd h (by decide)
  have h1 : ¬ pyLower s = "exit".data := by
    intro he; rw [he] at h; exact absurd h (by decide)
  have h2 : ¬ pyLower s = "help".data := by
    intro he; rw [he] at h; exact absurd h (by decide)
  have h3 : ¬ pyLower s = "status".data := by
    intro he; rw [he] at h; exact absurd h (by decide)
  unfold classifyS
  rw [if_neg h0, if_neg h1, if_neg h2, if_neg h3, if_pos h]

theorem classifyS_of_read (s : List Char)
    (h : "read ".data.isPrefixOf (pyLower s) = true) :
    classifyS s = Cmd.readC (afterFirstSpace s) := by
  have h0 : ¬ s = [] := by
    intro he; rw [he] at h; exact absurd h (by decide)
  have h1 : ¬ pyLower s = "exit".data := by
    intro he; rw [he] at h; exact absurd h (by decide)
  have h2 : ¬ pyLower s = "help".data := by
    intro he; rw [he] at h; exact absurd h (by decide)
  have h3 : ¬ pyLower s = "status".data := by
    intro he; rw [he] at h; exact absurd h (by decide)
  have h4 : ¬ ("create ".data.isPrefixOf (pyLower s) = true) := by
    intro hc
    have hp1 := List.isPrefixOf_iff_prefix.mp hc
    have hp2 := List.isPrefixOf_iff_prefix.mp h
    have hpp := List.prefix_of_prefix_length_le hp2 hp1 (by decide)
    exact absurd hpp (by decide)
  unfold classifyS
  rw [if_neg h0, if_neg h1, if_neg h2, if_neg h3, if_neg h4, if_pos h]

theorem classifyS_of_run (s : List Char)
    (h : "run ".data.isPrefixOf (pyLower s) = true) :
    classifyS s = Cmd.runC (afterFirstSpace s) := by
  have h0 : ¬ s = [] := by
    intro he; rw [he] at h; exact absurd h (by decide)
  have h1 : ¬ pyLower s = "exit".data := by
    intro he; rw [he] at h; exact absurd h (by decide)
  have h2 : ¬ pyLower s = "help".data := by
    intro he; rw [he] at h; exact absurd h (by decide)
  have h3 : ¬ pyLower s = "status".data := by
    intro he; rw [he] at h; exact absurd h (by decide)
  have h4 : ¬ ("create ".data.isPrefixOf (pyLower s) = true) := by
    intro hc
    have hp1 := List.isPrefixOf_iff_prefix.mp hc
    have hp2 := List.isPrefixOf_iff_prefix.mp h
    have hpp := List.prefix_of_prefix_length_le hp2 hp1 (by decide)
    exact absurd hpp (by decide)
  have h5 : ¬ ("read ".data.isPrefixOf (pyLower s) = true) := by
    intro hc
    have hp1 := List.isPrefixOf_iff_prefix.mp hc
    have hp2 := List.isPrefixOf_iff_prefix.mp h
    have hpp := List.prefix_of_prefix_length_le hp2 hp1 (by decide)
    exact absurd hpp (by decide)
  unfold classifyS
  rw [if_neg h0, if_neg h1, if_neg h2, if_neg h3, if_neg h4, if_neg h5, if_pos h]

theorem classifyS_of_default (s : List Char) (h0 : s ≠ [])
    (h1 : pyLower s ≠ "exit".data) (h2 : pyLower s ≠ "help".data)
    (h3 : pyLower s ≠ "status".data)
    (h4 : ¬ "create ".data.isPrefixOf (pyLower s) = true)
    (h5 : ¬ "read ".data.isPrefixOf (pyLower s) = true)
    (h6 : ¬ "run ".data.isPrefixOf (pyLower s) = true) :
    classifyS s = Cmd.taskC s := by
  unfold classifyS
  rw [if_neg h0, if_neg h1, if_neg h2, if_neg h3, if_neg h4, if_neg h5, if_neg h6]

theorem classifyS_createC_inv (s ct : List Char)
    (h : classifyS s = Cmd.createC ct) : ct = afterFirstSpace s := by
  unfold classifyS at h
  split_ifs at h
  all_goals simp_all

theorem classifyS_readC_inv (s fn : List Char)
    (h : classifyS s = Cmd.readC fn) : fn = afterFirstSpace s := by
  unfold classifyS at h
  split_ifs at h
  all_goals simp_all

theorem classifyS_runC_inv (s cm : List Char)
    (h : classifyS s = Cmd.runC cm) : cm = afterFirstSpace s := by
  unfold classifyS at h
  split_ifs at h
  all_goals simp_all

theorem stepLine_snd_stop_iff (M : SuperNjaguMain) (L : List Char) :
    (stepLine M L).2 = LoopOutcome.stop ↔ classify L = Cmd.exitC := by
  cases h : classify L <;> simp [stepLine, h]

/-- The payload of a `create`/`read`/`run` command never ends in
whitespace: it is a suffix of the stripped line. -/
theorem afterFirstSpace_pyStrip_last (L : List Char) (c : Char)
    (h : (afterFirstSpace (pyStrip L)).getLast? = some c) :
    pyIsSpace c = false := by
  have hne : afterFirstSpace (pyStrip L) ≠ [] := by
    intro he; rw [he] at h; simp at h
  have hsuf : afterFirstSpace (pyStrip L) <:+ pyStrip L := by
    unfold afterFirstSpace
    exact (List.drop_suffix 1 _).trans (List.dropWhile_suffix _)
  obtain ⟨t, ht⟩ := hsuf
  have hPsne : pyStrip L ≠ [] := by
    intro he
    apply hne
    rw [he]
    rfl
  have hlast : (pyStrip L).getLast? = some c := by
    rw [← ht, List.getLast?_append_of_ne_nil _ hne, h]
  have hc : (pyStrip L).getLast hPsne = c := by
    have := (List.getLast?_eq_getLast_of_ne_nil hPsne).symm.trans hlast
    exact Option.some.inj this
  have hnot := List.rdropWhile_last_not pyIsSpace (List.dropWhile pyIsSpace L)
      (by unfold pyStrip at hPsne; exact hPsne)
  rw [show c = (pyStrip L).getLast hPsne from hc.symm]
  unfold pyStrip
  simpa using hnot

/-! ## Claims -/

/-- C1, counterexample: the line `"  exit  "` is non-empty, is not exactly
`exit`/`help`/`status` case-insensitively, and does not start with the
prefixes `create `/`read `/`run ` case-insensitively, yet the dispatcher
does not route it to the autonomous-task path: it strips the line first,
classifies it as the `exit` command, makes no agent call, and terminates
the loop. -/
theorem c1_counterexample :
    ("  exit  ".data ≠ [] ∧
     pyLower "  exit  ".data ≠ "exit".data ∧
     pyLower "  exit  ".data ≠ "help".data ∧
     pyLower "  exit  ".data ≠ "status".data ∧
     "create ".data.isPrefixOf (pyLower "  exit  ".data) = false ∧
     "read ".data.isPrefixOf (pyLower "  exit  ".data) = false ∧
     "run ".data.isPrefixOf (pyLower "  exit  ".data) = false) ∧
    classify "  exit  ".data = Cmd.exitC ∧
    agentCalls (stepLine Mwit "  exit  ".data).1 = [] ∧
    (stepLine Mwit "  exit  ".data).2 = LoopOutcome.stop := by
  decide

/-- C1, amended: the conditions are on the whitespace-stripped line.  For
every input line whose stripped text is non-empty, is not exactly
`exit`/`help`/`status` (case-insensitive) and does not start with
`create `/`read `/`run ` (case-insensitive), the dispatcher classifies the
line as an autonomous task, calls `execute_autonomous` exactly once with
the stripped text, and the loop continues.  Classification is the total
function `classify` of the line's text, hence deterministic. -/
theorem c1_autonomous_routing (M : SuperNjaguMain) (L : List Char)
    (h0 : pyStrip L ≠ [])
    (h1 : pyLower (pyStrip L) ≠ "exit".data)
    (h2 : pyLower (pyStrip L) ≠ "help".data)
    (h3 : pyLower (pyStrip L) ≠ "status".data)
    (h4 : "create ".data.isPrefixOf (pyLower (pyStrip L)) = false)
    (h5 : "read ".data.isPrefixOf (pyLower (pyStrip L)) = false)
    (h6 : "run ".data.isPrefixOf (pyLower (pyStrip L)) = false) :
    classify L = Cmd.taskC (pyStrip L) ∧
    agentCalls (stepLine M L).1 = [pyStrip L] ∧
    (stepLine M L).2 = LoopOutcome.continueLoop := by
  have hcl : classify L = Cmd.taskC (pyStrip L) :=
    classifyS_of_default (pyStrip L) h0 h1 h2 h3
      (by simp [h4]) (by simp [h5]) (by simp [h6])
  refine ⟨hcl, ?_, ?_⟩
  · cases hA : M.execute_autonomous (pyStrip L) <;>
      simp [stepLine, hcl, run_task, hA, agentCalls, List.filterMap_append]
  · simp [stepLine, hcl]

/-- Witness for C1 at the line `"build a calculator"`. -/
theorem c1_autonomous_routing_witness :
    (pyStrip "build a calculator".data ≠ [] ∧
     pyLower (pyStrip "build a calculator".data) ≠ "exit".data ∧
     pyLower (pyStrip "build a calculator".data) ≠ "help".data ∧
     pyLower (pyStrip "build a calculator".data) ≠ "status".data ∧
     "create ".data.isPrefixOf (pyLower (pyStrip "build a calculator".data)) = false ∧
     "read ".data.isPrefixOf (pyLower (pyStrip "build a calculator".data)) = false ∧
     "run ".data.isPrefixOf (pyLower (pyStrip "build a calculator".data)) = false) ∧
    (classify "build a calculator".data =
      Cmd.taskC (pyStrip "build a calculator".data) ∧
     agentCalls (stepLine Mwit "build a calculator".data).1 =
      [pyStrip "build a calculator".data] ∧
     (stepLine Mwit "build a calculator".data).2 = LoopOutcome.continueLoop) :=
  ⟨⟨by decide, by decide, by decide, by decide, by decide, by decide, by decide⟩,
   c1_autonomous_routing Mwit "build a calculator".data
     (by decide) (by decide) (by decide) (by decide)
     (by decide) (by decide) (by decide)⟩

/-- C2: with process arguments present, `main` joins them with single
spaces into one task string, calls `execute_autonomous` exactly once with
that string (in particular `["build", "a", "calculator"]` yields the
literal join `"build a calculator"`), and on success prints the task
status and the step count from the returned result and exits with the
completed result. -/
theorem c2_single_task_run (M : SuperNjaguMain) (args : List (List Char))
    (h : args ≠ []) :
    agentCalls (mainEntry M args).1 = [List.intercalate [' '] args] ∧
    List.intercalate [' '] ["build".data, "a".data, "calculator".data] =
      "build a calculator".data ∧
    (∀ r, M.execute_autonomous (List.intercalate [' '] args) = .ok r →
      (mainEntry M args).2 = ProcExit.completed r ∧
      Event.print ("✅ Task Status: ".data ++ r.status) ∈ (mainEntry M args).1 ∧
      Event.print ("📊 Steps Completed: ".data ++ (Nat.repr r.steps.length).data) ∈
        (mainEntry M args).1) := by
  cases args with
  | nil => exact absurd rfl h
  | cons a rest =>
    refine ⟨?_, by decide, fun r hr => ?_⟩
    · cases hA : M.execute_autonomous (List.intercalate [' '] (a :: rest)) <;>
        simp [mainEntry, run_task, hA, agentCalls, List.filterMap_append]
    · simp [mainEntry, run_task, hr]

/-- Witness for C2 at arguments `["build", "a", "calculator"]`. -/
theorem c2_single_task_run_witness :
    (["build".data, "a".data, "calculator".data] ≠ ([] : List (List Char))) ∧
    agentCalls (mainEntry Mwit ["build".data, "a".data, "calculator".data]).1 =
      [List.intercalate [' '] ["build".data, "a".data, "calculator".data]] ∧
    (mainEntry Mwit ["build".data, "a".data, "calculator".data]).2 =
      ProcExit.completed
        ⟨"completed".data, ["step1".data, "step2".data], "done".data⟩ :=
  ⟨by decide,
   (c2_single_task_run Mwit ["build".data, "a".data, "calculator".data]
     (by decide)).1,
   ((c2_single_task_run Mwit ["build".data, "a".data, "calculator".data]
     (by decide)).2.2 _ rfl).1⟩

/-- C3: a line starting with `create ` (case-insensitive) is split at the
first space of the stripped line; the remainder is the full content, and
`create_file` is called exactly once, with the fixed filename
`user_file.txt` regardless of the content — so successive `create`
commands always target the same file. -/
theorem c3_create_fixed_filename (M : SuperNjaguMain) (L : List Char)
    (h : "create ".data.isPrefixOf (pyLower (pyStrip L)) = true) :
    classify L = Cmd.createC (afterFirstSpace (pyStrip L)) ∧
    createCalls (stepLine M L).1 =
      [("user_file.txt".data, afterFirstSpace (pyStrip L))] ∧
    (∀ fn ct, Event.callCreateFile fn ct ∈ (stepLine M L).1 →
      fn = "user_file.txt".data) := by
  have hcl : classify L = Cmd.createC (afterFirstSpace (pyStrip L)) :=
    classifyS_of_create (pyStrip L) h
  have hc2 : createCalls (stepLine M L).1 =
      [("user_file.txt".data, afterFirstSpace (pyStrip L))] := by
    cases hC : M.create_file "user_file.txt".data (afterFirstSpace (pyStrip L)) <;>
      simp [stepLine, hcl, hC, createCalls]
  refine ⟨hcl, hc2, fun fn ct hmem => ?_⟩
  have hmem2 : (fn, ct) ∈ createCalls (stepLine M L).1 := by
    unfold createCalls
    exact List.mem_filterMap.mpr ⟨_, hmem, rfl⟩
  rw [hc2] at hmem2
  simp at hmem2
  exact hmem2.1

/-- Witness for C3 at the line `"create hello world"`. -/
theorem c3_create_fixed_filename_witness :
    ("create ".data.isPrefixOf (pyLower (pyStrip "create hello world".data)) =
      true) ∧
    createCalls (stepLine Mwit "create hello world".data).1 =
      [("user_file.txt".data, "hello world".data)] := by
  refine ⟨by decide, ?_⟩
  have hth := (c3_create_fixed_filename Mwit "create hello world".data
    (by decide)).2.1
  rw [hth]
  decide

/-- C4: a line starting with `run ` (case-insensitive) passes the
remainder after the first space as the full command to `execute_command`;
on success the dispatcher prints the `success` boolean and, exactly when
`stdout` is truthy, one output line holding the first 200 characters of
`stdout` followed by the ellipsis marker — the marker is appended
unconditionally, even when `stdout` is shorter than 200 characters. -/
theorem c4_run_output_truncation (M : SuperNjaguMain) (L : List Char)
    (h : "run ".data.isPrefixOf (pyLower (pyStrip L)) = true) :
    classify L = Cmd.runC (afterFirstSpace (pyStrip L)) ∧
    runCalls (stepLine M L).1 = [afterFirstSpace (pyStrip L)] ∧
    (∀ res, M.execute_command (afterFirstSpace (pyStrip L)) = .ok res →
      (stepLine M L).1 =
        [Event.callRunCmd (afterFirstSpace (pyStrip L)),
         Event.print "\n⚡ Command Result:".data,
         Event.print ("  Success: ".data ++ pyBoolStr res.success)] ++
        (if pyTruthy res.stdout then
          [Event.print ("  Output: ".data ++
            (res.stdout.getD []).take 200 ++ "...".data)]
         else [])) := by
  have hcl : classify L = Cmd.runC (afterFirstSpace (pyStrip L)) :=
    classifyS_of_run (pyStrip L) h
  refine ⟨hcl, ?_, fun res hres => ?_⟩
  · cases hC : M.execute_command (afterFirstSpace (pyStrip L)) with
    | error e => simp [stepLine, hcl, hC, runCalls]
    | ok res =>
      cases hT : pyTruthy res.stdout <;>
        simp [stepLine, hcl, hC, hT, runCalls, List.filterMap_append]
  · simp [stepLine, hcl, hres]

/-- Witness for C4 at the line `"run echo hi"` with a collaborator
returning `success = true`, `stdout = "hi"`: the output line is
`"  Output: hi..."`, ending in the ellipsis marker although `"hi"` is far
shorter than 200 characters. -/
theorem c4_run_output_truncation_witness :
    ("run ".data.isPrefixOf (pyLower (pyStrip "run echo hi".data)) = true) ∧
    (stepLine Mwit "run echo hi".data).1 =
      [Event.callRunCmd "echo hi".data,
       Event.print "\n⚡ Command Result:".data,
       Event.print "  Success: True".data,
       Event.print "  Output: hi...".data] := by
  refine ⟨by decide, ?_⟩
  have hth := (c4_run_output_truncation Mwit "run echo hi".data
    (by decide)).2.2 ⟨true, some "hi".data⟩ rfl
  rw [hth]
  decide

/-- C5: a line starting with `read ` (case-insensitive) is split at the
first space of the stripped line and the remainder — verbatim, embedded
spaces included — is passed unmodified as the filename to `read_file`,
which is called exactly once. -/
theorem c5_read_verbatim_filename (M : SuperNjaguMain) (L : List Char)
    (h : "read ".data.isPrefixOf (pyLower (pyStrip L)) = true) :
    classify L = Cmd.readC (afterFirstSpace (pyStrip L)) ∧
    readCalls (stepLine M L).1 = [afterFirstSpace (pyStrip L)] := by
  have hcl : classify L = Cmd.readC (afterFirstSpace (pyStrip L)) :=
    classifyS_of_read (pyStrip L) h
  refine ⟨hcl, ?_⟩
  cases hC : M.read_file (afterFirstSpace (pyStrip L)) <;>
    simp [stepLine, hcl, hC, readCalls]

/-- Witness for C5 at the line `"read my file.txt"`: the filename passed
is `"my file.txt"`, embedded space preserved. -/
theorem c5_read_verbatim_filename_witness :
    ("read ".data.isPrefixOf (pyLower (pyStrip "read my file.txt".data)) =
      true) ∧
    readCalls (stepLine Mwit "read my file.txt".data).1 =
      ["my file.txt".data] := by
  refine ⟨by decide, ?_⟩
  have hth := (c5_read_verbatim_filename Mwit "read my file.txt".data
    (by decide)).2
  rw [hth]
  decide

/-- C6: inside the interactive loop every collaborator error is caught by
the iteration's handler: the loop stops only on the `exit` command (so no
error terminates it), and whenever the dispatched collaborator raises,
the message is rendered as the `\n❌ Error:` line and the loop continues —
including an error raised by `get_status` during the `status` command. -/
theorem c6_loop_error_recovery (M : SuperNjaguMain) (L : List Char) :
    ((stepLine M L).2 = LoopOutcome.stop ↔ classify L = Cmd.exitC) ∧
    (∀ e, classify L = Cmd.statusC → M.get_status () = .error e →
      (stepLine M L).1 = [Event.callGetStatus, Event.print (errLine e)] ∧
      (stepLine M L).2 = LoopOutcome.continueLoop) ∧
    (∀ e ct, classify L = Cmd.createC ct →
      M.create_file "user_file.txt".data ct = .error e →
      Event.print (errLine e) ∈ (stepLine M L).1 ∧
      (stepLine M L).2 = LoopOutcome.continueLoop) ∧
    (∀ e fn, classify L = Cmd.readC fn → M.read_file fn = .error e →
      Event.print (errLine e) ∈ (stepLine M L).1 ∧
      (stepLine M L).2 = LoopOutcome.continueLoop) ∧
    (∀ e cm, classify L = Cmd.runC cm → M.execute_command cm = .error e →
      Event.print (errLine e) ∈ (stepLine M L).1 ∧
      (stepLine M L).2 = LoopOutcome.continueLoop) ∧
    (∀ e t, classify L = Cmd.taskC t → M.execute_autonomous t = .error e →
      Event.print (errLine e) ∈ (stepLine M L).1 ∧
      (stepLine M L).2 = LoopOutcome.continueLoop) := by
  refine ⟨stepLine_snd_stop_iff M L, ?_, ?_, ?_, ?_, ?_⟩
  · intro e hcl he
    simp [stepLine, hcl, he]
  · intro e ct hcl he
    simp [stepLine, hcl, he]
  · intro e fn hcl he
    simp [stepLine, hcl, he]
  · intro e cm hcl he
    simp [stepLine, hcl, he]
  · intro e t hcl he
    simp [stepLine, hcl, run_task, he]

/-- Witness for C6: with a `get_status` collaborator that raises `boom`,
the `status` command prints the error line and the loop continues. -/
theorem c6_loop_error_recovery_witness :
    (classify "status".data = Cmd.statusC ∧
     Merr.get_status () = .error "boom".data) ∧
    ((stepLine Merr "status".data).1 =
      [Event.callGetStatus, Event.print (errLine "boom".data)] ∧
     (stepLine Merr "status".data).2 = LoopOutcome.continueLoop) :=
  ⟨⟨by decide, rfl⟩,
   (c6_loop_error_recovery Merr "status".data).2.1 "boom".data (by decide) rfl⟩

/-- C7: in non-interactive mode nothing wraps the agent call: when
`execute_autonomous` raises, `run_task` and `main` propagate the error
and the process exits crashed. -/
theorem c7_noninteractive_unguarded (M : SuperNjaguMain)
    (args : List (List Char)) (e : Err) (h : args ≠ [])
    (he : M.execute_autonomous (List.intercalate [' '] args) = .error e) :
    (mainEntry M args).2 = ProcExit.crashed e := by
  cases args with
  | nil => exact absurd rfl h
  | cons a rest => simp [mainEntry, run_task, he]

/-- Witness for C7: the all-raising collaborator crashes the
single-task run. -/
theorem c7_noninteractive_unguarded_witness :
    (["build".data, "a".data, "calculator".data] ≠ ([] : List (List Char)) ∧
     Merr.execute_autonomous
       (List.intercalate [' '] ["build".data, "a".data, "calculator".data]) =
       .error "boom".data) ∧
    (mainEntry Merr ["build".data, "a".data, "calculator".data]).2 =
      ProcExit.crashed "boom".data :=
  ⟨⟨by decide, rfl⟩,
   c7_noninteractive_unguarded Merr ["build".data, "a".data, "calculator".data]
     "boom".data (by decide) rfl⟩

/-- C8: the interactive loop as a state machine has the single state
`awaiting` with a self-transition on every branch — an interrupt during
the blocking read prints a message and stays in `awaiting`, and a read
line reaches the terminal state `stopped` exactly when its stripped text
is `exit` case-insensitively; `stopped` is terminal. -/
theorem c8_loop_state_machine (M : SuperNjaguMain) (L : List Char)
    (r : ReadResult) :
    loopStep M LoopState.awaiting ReadResult.interrupt =
      ([Event.print interruptedMsg], LoopState.awaiting) ∧
    ((loopStep M LoopState.awaiting (ReadResult.line L)).2 =
      LoopState.stopped ↔ pyLower (pyStrip L) = "exit".data) ∧
    ((loopStep M LoopState.awaiting (ReadResult.line L)).2 =
      LoopState.awaiting ↔ ¬ pyLower (pyStrip L) = "exit".data) ∧
    loopStep M LoopState.stopped r = ([], LoopState.stopped) := by
  have hiff : (stepLine M L).2 = LoopOutcome.stop ↔
      pyLower (pyStrip L) = "exit".data :=
    (stepLine_snd_stop_iff M L).trans (classifyS_eq_exitC_iff (pyStrip L))
  refine ⟨rfl, ?_, ?_, rfl⟩
  · rw [show (loopStep M LoopState.awaiting (ReadResult.line L)).2 =
        (match (stepLine M L).2 with
         | LoopOutcome.continueLoop => LoopState.awaiting
         | LoopOutcome.stop => LoopState.stopped) from rfl, ← hiff]
    cases (stepLine M L).2 <;> simp
  · rw [show (loopStep M LoopState.awaiting (ReadResult.line L)).2 =
        (match (stepLine M L).2 with
         | LoopOutcome.continueLoop => LoopState.awaiting
         | LoopOutcome.stop => LoopState.stopped) from rfl, ← hiff]
    cases (stepLine M L).2 <;> simp

/-- C9: a line consisting only of whitespace (or empty) produces no
dispatch, no collaborator call and no output, and the loop re-prompts. -/
theorem c9_blank_line_ignored (M : SuperNjaguMain) (L : List Char)
    (h : ∀ c ∈ L, pyIsSpace c = true) :
    stepLine M L = ([], LoopOutcome.continueLoop) := by
  have hs : pyStrip L = [] := by
    unfold pyStrip
    rw [List.dropWhile_eq_nil_iff.mpr h]
    simp
  have hcl : classify L = Cmd.blank := by
    unfold classify
    rw [hs]
    decide
  simp [stepLine, hcl]

/-- Witness for C9 at a line of three spaces. -/
theorem c9_blank_line_ignored_witness :
    (∀ c ∈ "   ".data, pyIsSpace c = true) ∧
    stepLine Mwit "   ".data = ([], LoopOutcome.continueLoop) :=
  ⟨by decide, c9_blank_line_ignored Mwit "   ".data (by decide)⟩

/-- C10: the loop strips surrounding whitespace before classification —
dispatch is invariant under stripping, `"  exit  "` stops the loop, and
`"read notes.txt   "` passes the filename `notes.txt` — and the payload
of every `create`/`read`/`run` command never ends in whitespace, because
it is cut from the stripped line. -/
theorem c10_strip_before_dispatch (M : SuperNjaguMain) (L : List Char) :
    stepLine M (pyStrip L) = stepLine M L ∧
    (stepLine M "  exit  ".data).2 = LoopOutcome.stop ∧
    readCalls (stepLine M "read notes.txt   ".data).1 = ["notes.txt".data] ∧
    (∀ ct c, classify L = Cmd.createC ct → ct.getLast? = some c →
      pyIsSpace c = false) ∧
    (∀ fn c, classify L = Cmd.readC fn → fn.getLast? = some c →
      pyIsSpace c = false) ∧
    (∀ cm c, classify L = Cmd.runC cm → cm.getLast? = some c →
      pyIsSpace c = false) := by
  refine ⟨stepLine_pyStrip M L, ?_, ?_, ?_, ?_, ?_⟩
  · simp [stepLine, show classify "  exit  ".data = Cmd.exitC from by decide]
  · have hcl : classify "read notes.txt   ".data =
        Cmd.readC (afterFirstSpace (pyStrip "read notes.txt   ".data)) :=
      classifyS_of_read _ (by decide)
    cases hC : M.read_file (afterFirstSpace (pyStrip "read notes.txt   ".data)) <;>
      simp [stepLine, hcl, hC, readCalls] <;> decide
  · intro ct c hcl hlast
    have hct := classifyS_createC_inv (pyStrip L) ct hcl
    rw [hct] at hlast
    exact afterFirstSpace_pyStrip_last L c hlast
  · intro fn c hcl hlast
    have hfn := classifyS_readC_inv (pyStrip L) fn hcl
    rw [hfn] at hlast
    exact afterFirstSpace_pyStrip_last L c hlast
  · intro cm c hcl hlast
    have hcm := classifyS_runC_inv (pyStrip L) cm hcl
    rw [hcm] at hlast
    exact afterFirstSpace_pyStrip_last L c hlast

/-- Witness for C10: `"read notes.txt   "` classifies as a read of
`notes.txt`, whose last character `t` is not whitespace. -/
theorem c10_strip_before_dispatch_witness :
    (classify "read notes.txt   ".data = Cmd.readC "notes.txt".data ∧
     ("notes.txt".data).getLast? = some 't') ∧
    pyIsSpace 't' = false :=
  ⟨⟨by decide, by decide⟩,
   (c10_strip_before_dispatch Mwit "read notes.txt   ".data).2.2.2.2.1
     "notes.txt".data 't' (by decide) (by decide)⟩
